import Mathlib

/-!
Verification of the DiskCopy (`DC42` disk-image tool) core against its
specification. The definitions below are a shallow embedding of the C++
sources (`endian.h`, `disk_copy.cc` / `disk_copy.h`, `hfs_basic.cc` /
`hfs_basic.h`). Machine integers are modelled as `Nat`, with an explicit
`% 2^w` wherever the C arithmetic wraps; byte buffers are `List Nat`
whose elements are byte values (`< 256`); `absl::Status` results become
`Except DCError`.
-/

namespace DiskCopy

/-- Distinct error results produced by the core, one constructor per
`absl` error site, carrying the values the C++ code formats into the
message. -/
inductive DCError where
  /-- `CreateForHFS`: "name ... is longer than the DC42 maximum". -/
  | nameTooLong (len : Nat)
  /-- `CreateForHFS`: "HFS data block count %d is not recognized as valid". -/
  | badBlockCount (c : Nat)
  /-- `DiskFormatByte`: "Unknown Disk Format Byte". -/
  | unknownDiskFormatByte (dfb : Nat)
  /-- `FormatByte`: "Unknown Format Byte". -/
  | unknownFormatByte (fb : Nat)
  /-- `Validate`: "Invalid name length". -/
  | invalidNameLength (len : Nat)
  /-- `Validate`: "Invalid magic number ... != 0x100". -/
  | badMagic (priv : Nat)
  /-- `CheckEven`: "Data size %d is not an even number of bytes." -/
  | oddByteCount (n : Nat)
  /-- `UpdateSumFromFile`: "Failed to read %d bytes after %d bytes read,
  %d bytes remaining". -/
  | readFailed (chunkSize bytesRead bytesRemaining : Nat)
  /-- `HFSMasterDirectoryBlock::Valid`: "Signature %x did not match". -/
  | badSignature (sig : Nat)
  /-- `HFSMasterDirectoryBlock::Valid`: "Declared allocation size %d not a
  multiple of block size". -/
  | badAllocationSize (s : Nat)
deriving Repr, DecidableEq

/-- `endian.h` `BigEndian2`: decode 2 bytes, most significant first.
`c[0] << 8 | c[1]`. -/
def BigEndian2 (b : List Nat) : Nat :=
  ((b.getD 0 0) <<< 8) ||| b.getD 1 0

/-- `endian.h` `BigEndian4`: decode 4 bytes, most significant first.
`c[0] << 24 | c[1] << 16 | c[2] << 8 | c[3]`. -/
def BigEndian4 (b : List Nat) : Nat :=
  ((b.getD 0 0) <<< 24) ||| ((b.getD 1 0) <<< 16) ||| ((b.getD 2 0) <<< 8) |||
    b.getD 3 0

/-- `endian.h` `WriteBigEndian2`: `bytes[0] = value >> 8; bytes[1] = value
& 0xff;` (the store into a `char` truncates to a byte, hence `% 256`). -/
def WriteBigEndian2 (value : Nat) : List Nat :=
  [(value >>> 8) % 256, value &&& 0xff]

/-- `endian.h` `WriteBigEndian4`: the four bytes of `value`, most
significant first (each `char` store truncates to a byte). -/
def WriteBigEndian4 (value : Nat) : List Nat :=
  [(value >>> 24) % 256, (value >>> 16) &&& 0xff, (value >>> 8) &&& 0xff,
    value &&& 0xff]

/-- `DiskCopyChecksum::UpdateSum` (`disk_copy.cc`): `s = sum_ + new_word`
in `uint32_t` arithmetic (hence `% 2^32`), then rotate right one bit,
wrapping bit 0 into bit 31. -/
def UpdateSum (sum new_word : Nat) : Nat :=
  let s := (sum + new_word) % 2 ^ 32
  if s &&& 0x1 ≠ 0 then
    0x80000000 ||| ((s >>> 1) &&& 0x7fffffff)
  else
    0x7fffffff &&& (s >>> 1)

/-- `CheckEven` (`disk_copy.cc`, anonymous namespace). NOTE: the C++
source tests `byte_count % 1`, which is always zero, so this check never
fires; the embedding reproduces that faithfully. -/
def CheckEven (byte_count : Nat) : Except DCError Unit :=
  if byte_count % 1 ≠ 0 then
    .error (.oddByteCount byte_count)
  else
    .ok ()

/-- The loop of `DiskCopyChecksum::UpdateSumFromBlock`:
`for (c = 0; c < byte_count; c += 2) UpdateSum(BigEndian2(buffer + c));`.
The pointer `buffer + c` is modelled as `buffer.drop c`. -/
def blockLoop (sum : Nat) (buffer : List Nat) (c byte_count : Nat) : Nat :=
  if c < byte_count then
    blockLoop (UpdateSum sum (BigEndian2 (buffer.drop c))) buffer (c + 2)
      byte_count
  else
    sum
termination_by byte_count - c
decreasing_by omega

/-- `DiskCopyChecksum::UpdateSumFromBlock`: check the byte count parity
(see `CheckEven`), then feed consecutive big-endian words. -/
def UpdateSumFromBlock (sum : Nat) (buffer : List Nat) (byte_count : Nat) :
    Except DCError Nat :=
  match CheckEven byte_count with
  | .error e => .error e
  | .ok _ => .ok (blockLoop sum buffer 0 byte_count)

/-- The `while (remaining_bytes_to_read)` loop of
`DiskCopyChecksum::UpdateSumFromFile`, chunk size 1024. The stream is
modelled as the list of bytes still ahead of the read position; a read
of `chunk` bytes fails when fewer than `chunk` bytes remain. -/
def fileLoop (sum : Nat) (stream : List Nat)
    (remaining_bytes_to_read data_bytes_read : Nat) : Except DCError Nat :=
  if remaining_bytes_to_read = 0 then
    .ok sum
  else
    let chunk_size := min remaining_bytes_to_read 1024
    if stream.length < chunk_size then
      .error (.readFailed chunk_size data_bytes_read remaining_bytes_to_read)
    else
      match UpdateSumFromBlock sum (stream.take chunk_size) chunk_size with
      | .error e => .error e
      | .ok sum2 =>
          fileLoop sum2 (stream.drop chunk_size)
            (remaining_bytes_to_read - chunk_size)
            (data_bytes_read + chunk_size)
termination_by remaining_bytes_to_read
decreasing_by omega

/-- `DiskCopyChecksum::UpdateSumFromFile`: parity check, then the chunked
read loop. -/
def UpdateSumFromFile (sum : Nat) (stream : List Nat) (byte_count : Nat) :
    Except DCError Nat :=
  match CheckEven byte_count with
  | .error e => .error e
  | .ok _ => fileLoop sum stream byte_count 0

/-- The in-memory `DiskCopyHeader` record (`disk_copy.h`). `name_length`
is a `size_t`, `name_bytes` a `char[63]` (a 63-element byte list),
`data_size`/`tag_size`/the two checksums `uint32_t`, `disk_format` and
`format_byte` `uint8_t`, and `priv` (the C++ `private_` member) a
`uint16_t`. -/
structure DiskCopyHeader where
  name_length : Nat
  name_bytes : List Nat
  data_size : Nat
  tag_size : Nat
  header_data_checksum : Nat
  header_tag_checksum : Nat
  disk_format : Nat
  format_byte : Nat
  priv : Nat
deriving Repr, DecidableEq

/-- The decoding constructor `DiskCopyHeader(const char header_bytes[84])`
(`disk_copy.cc`): name length from byte 0, 63 name bytes, four big-endian
32-bit fields at offsets 64/68/72/76, two format bytes at 80/81, and the
16-bit magic field at 82. -/
def DiskCopyHeader.ofBytes (header_bytes : List Nat) : DiskCopyHeader :=
  { name_length := header_bytes.getD 0 0
  , name_bytes := (header_bytes.drop 1).take 63
  , data_size := BigEndian4 (header_bytes.drop 64)
  , tag_size := BigEndian4 (header_bytes.drop 68)
  , header_data_checksum := BigEndian4 (header_bytes.drop 72)
  , header_tag_checksum := BigEndian4 (header_bytes.drop 76)
  , disk_format := header_bytes.getD 80 0
  , format_byte := header_bytes.getD 81 0
  , priv := BigEndian2 (header_bytes.drop 82) }

/-- `DiskCopyHeader::WriteToDisk` (`disk_copy.cc`): serialize the record
back into the 84-byte layout. Each single `char` store truncates to a
byte (`% 256`); `memcpy(header_bytes + 1, name_bytes_, 63)` copies the
63-byte name array (represented by padding/truncating the list to 63). -/
def DiskCopyHeader.WriteToDisk (h : DiskCopyHeader) : List Nat :=
  [h.name_length % 256]
    ++ (h.name_bytes ++ List.replicate 63 0).take 63
    ++ WriteBigEndian4 h.data_size
    ++ WriteBigEndian4 h.tag_size
    ++ WriteBigEndian4 h.header_data_checksum
    ++ WriteBigEndian4 h.header_tag_checksum
    ++ [h.disk_format % 256, h.format_byte % 256]
    ++ WriteBigEndian2 h.priv

/-- The `memset(0)` + `strncpy(name_bytes_, name.data(), name_length_)`
of the field-wise constructor (`disk_copy.h`): copy bytes of `name` up
to `n` but stopping at the first NUL, leaving the rest of the 63-byte
array zero. -/
def strncpyName (name : List Nat) (n : Nat) : List Nat :=
  let copied := (name.take n).takeWhile (fun b => b ≠ 0)
  copied ++ List.replicate (63 - copied.length) 0

/-- The field-wise (private) constructor `DiskCopyHeader(name, data_size,
tag_size, header_data_checksum, header_tag_checksum, disk_format,
format_byte)` (`disk_copy.h`): `name_length_ = min(name.length(), 63)`,
`private_ = kPrivate = 0x100`; each argument is received at its C type
(hence the `%` reductions). -/
def DiskCopyHeader.ofFields (name : List Nat)
    (data_size tag_size header_data_checksum header_tag_checksum
      disk_format format_byte : Nat) : DiskCopyHeader :=
  { name_length := min name.length 63
  , name_bytes := strncpyName name (min name.length 63)
  , data_size := data_size % 2 ^ 32
  , tag_size := tag_size % 2 ^ 32
  , header_data_checksum := header_data_checksum % 2 ^ 32
  , header_tag_checksum := header_tag_checksum % 2 ^ 32
  , disk_format := disk_format % 2 ^ 8
  , format_byte := format_byte % 2 ^ 8
  , priv := 0x100 }

/-- `DiskCopyHeader::CreateForHFS` (`disk_copy.cc`): reject names longer
than 63 bytes, map the block count to (disk-format code, format byte)
via the fixed conditional chain, and build the header with
`data_size = data_block_count * 512` (`uint32_t` arithmetic). -/
def CreateForHFS (name : List Nat) (data_block_count data_checksum
    tag_byte_count tag_checksum : Nat) : Except DCError DiskCopyHeader :=
  if name.length > 63 then
    .error (.nameTooLong name.length)
  else
    let formats : Except DCError (Nat × Nat) :=
      if 800 = data_block_count then .ok (0, 0x12)
      else if 1600 = data_block_count then .ok (1, 0x22)
      else if 1440 = data_block_count then .ok (2, 0x22)
      else if 2880 = data_block_count then .ok (3, 0x22)
      else .error (.badBlockCount data_block_count)
    match formats with
    | .error e => .error e
    | .ok (disk_format_byte, format_byte) =>
        .ok (DiskCopyHeader.ofFields name ((data_block_count * 512) % 2 ^ 32)
          tag_byte_count data_checksum tag_checksum disk_format_byte
          format_byte)

/-- `DiskFormatByte` (`disk_copy.cc`, anonymous namespace): names for the
recognized disk-format codes 0..3, an error otherwise. -/
def DiskFormatByte (dfb : Nat) : Except DCError String :=
  match dfb with
  | 0 => .ok "400k"
  | 1 => .ok "800k"
  | 2 => .ok "720k"
  | 3 => .ok "1440k"
  | _ => .error (.unknownDiskFormatByte dfb)

/-- `FormatByte` (`disk_copy.cc`, anonymous namespace): names for the
recognized format bytes 0x02, 0x12, 0x22, 0x24, an error otherwise. -/
def FormatByte (fb : Nat) : Except DCError String :=
  match fb with
  | 0x02 => .ok "400k (alternate)"
  | 0x12 => .ok "400k"
  | 0x22 => .ok ">400k"
  | 0x24 => .ok "800k Apple II"
  | _ => .error (.unknownFormatByte fb)

/-- `DiskCopyHeader::TotalFileSize` (`disk_copy.cc`):
`data_size_ + tag_size_ + kHeaderLength` in `uint32_t` arithmetic. -/
def DiskCopyHeader.TotalFileSize (h : DiskCopyHeader) : Nat :=
  (h.data_size + h.tag_size + 84) % 2 ^ 32

/-- `DiskCopyHeader::Validate` (`disk_copy.cc`): name length, disk-format
code, format byte, the 0x0100 magic field, and the (broken, see
`CheckEven`) data-size parity check, in that order; on success the total
file size. -/
def DiskCopyHeader.Validate (h : DiskCopyHeader) : Except DCError Nat :=
  if h.name_length > 63 then
    .error (.invalidNameLength h.name_length)
  else
    match DiskFormatByte h.disk_format with
    | .error e => .error e
    | .ok _ =>
        match FormatByte h.format_byte with
        | .error e => .error e
        | .ok _ =>
            if h.priv ≠ 0x100 then
              .error (.badMagic h.priv)
            else
              match CheckEven h.data_size with
              | .error e => .error e
              | .ok _ => .ok h.TotalFileSize

/-- The `HFSMasterDirectoryBlock` record (`hfs_basic.h`), fields at their
C types: 16-bit `signature`, `volume_attributes`, counts and indexes;
32-bit dates, `allocation_block_size`, `default_clump_size`,
`next_unused_catalog_node_id`. -/
structure HFSMasterDirectoryBlock where
  signature : Nat
  volume_creation_date : Nat
  last_modification_date : Nat
  volume_attributes : Nat
  num_files_root_directory : Nat
  volume_bitmap_block : Nat
  next_allocation_search : Nat
  num_allocation_blocks : Nat
  allocation_block_size : Nat
  default_clump_size : Nat
  first_allocation_block : Nat
  next_unused_catalog_node_id : Nat
  num_free_allocation_blocks : Nat
  volume_name_length : Nat
  volume_name_bytes : List Nat
deriving Repr, DecidableEq

/-- `HFSMasterDirectoryBlock::Valid` (`hfs_basic.cc`): signature must be
0x4244; allocation block size must be a multiple of 512 (the `uint16_t`
cast of the remainder is lossless since the remainder is `< 512`); then
`non_allocated_blocks = first_allocation_block_ + 2` (`uint32_t`) and
`allocation_hfs_blocks = (allocation_block_size_ / 512) *
num_allocation_blocks_` — the multiplication is performed in `uint32_t`
(hence `% 2^32`) before widening to the `uint64_t` result. -/
def HFSMasterDirectoryBlock.Valid (m : HFSMasterDirectoryBlock) :
    Except DCError Nat :=
  if m.signature ≠ 0x4244 then
    .error (.badSignature m.signature)
  else if m.allocation_block_size % 512 ≠ 0 then
    .error (.badAllocationSize m.allocation_block_size)
  else
    let non_allocated_blocks := (m.first_allocation_block + 2) % 2 ^ 32
    let allocation_hfs_blocks :=
      ((m.allocation_block_size / 512) * m.num_allocation_blocks) % 2 ^ 32
    .ok ((non_allocated_blocks + allocation_hfs_blocks) % 2 ^ 64)

/-! ### Helper lemmas -/

/-- A shifted value or-ed with a small value is their sum: the arithmetic
reading of the big-endian byte assembly. -/
theorem shiftLeft_lor_eq (a : Nat) {i b : Nat} (hb : b < 2 ^ i) :
    (a <<< i) ||| b = 2 ^ i * a + b := by
  rw [Nat.shiftLeft_eq, Nat.mul_comm]
  exact (Nat.mul_add_lt_is_or hb a).symm

/-- Masking with `0xff` is reduction modulo 256. -/
theorem and_255_eq_mod (x : Nat) : x &&& 255 = x % 256 := by
  have h : (255 : Nat) = 2 ^ 8 - 1 := by norm_num
  rw [h, Nat.and_pow_two_sub_one_eq_mod]

/-- The spec's description of the rotating-checksum step, written from
its words in §4.2: `s = sum + w` with 32-bit wraparound; if the
least-significant bit of `s` is 1 the new accumulator is
`0x80000000 | ((s >> 1) & 0x7fffffff)`, otherwise
`(s >> 1) & 0x7fffffff`. -/
def specChecksumStep (sum w : Nat) : Nat :=
  let s := (sum + w) % 2 ^ 32
  if s % 2 = 1 then
    0x80000000 ||| ((s >>> 1) &&& 0x7fffffff)
  else
    (s >>> 1) &&& 0x7fffffff

/-! ### Claims -/

/-- C1: `UpdateSum` implements exactly the spec's add-then-rotate-right
step for every accumulator value and word, and the three known vectors
hold: from a zero accumulator, `0x0001 ↦ 0x80000000`, `0x0000 ↦ 0`, and
`0x2469 ↦ 0x80001234`. -/
theorem updateSum_matches_spec :
    (∀ sum w : Nat, UpdateSum sum w = specChecksumStep sum w) ∧
    UpdateSum 0 0x0001 = 0x80000000 ∧
    UpdateSum 0 0x0000 = 0x00000000 ∧
    UpdateSum 0 0x2469 = 0x80001234 := by
  refine ⟨fun sum w => ?_, by decide, by decide, by decide⟩
  unfold UpdateSum specChecksumStep
  simp only [Nat.and_one_is_mod]
  rcases Nat.mod_two_eq_zero_or_one ((sum + w) % 2 ^ 32) with h | h <;>
    simp [h, Nat.and_comm]

/-- C2 (code bug): the parity guard tests `byte_count % 1`, which is
always zero, so an odd byte count is accepted: `CheckEven 1` succeeds,
`UpdateSumFromBlock` happily feeds a 1-byte buffer, and `Validate`
accepts a header whose `data_size` is odd (returning its total size 85),
contradicting the claim that odd counts fail with a size-parity error. -/
theorem checkEven_accepts_odd :
    CheckEven 1 = .ok () ∧
    UpdateSumFromBlock 0 [7] 1 = .ok 896 ∧
    ({ name_length := 0, name_bytes := List.replicate 63 0, data_size := 1,
       tag_size := 0, header_data_checksum := 0, header_tag_checksum := 0,
       disk_format := 0, format_byte := 0x12, priv := 0x100 } :
       DiskCopyHeader).Validate = .ok 85 := by
  refine ⟨rfl, ?_, rfl⟩
  simp only [UpdateSumFromBlock, CheckEven]
  norm_num
  rw [blockLoop, if_pos (by norm_num)]
  rw [blockLoop, if_neg (by norm_num)]
  simp [UpdateSum, BigEndian2]
  decide

/-- C8: the big-endian codec round-trips: reading back the bytes written
for any `uint16` value yields the value again, and likewise for the
4-byte codec on any `uint32` value. -/
theorem bigEndian_roundtrip (x y : Nat) :
    (x < 2 ^ 16 → BigEndian2 (WriteBigEndian2 x) = x) ∧
    (y < 2 ^ 32 → BigEndian4 (WriteBigEndian4 y) = y) := by
  constructor
  · intro hx
    have hq : x &&& 0xff < 2 ^ 8 := by
      rw [and_255_eq_mod]; omega
    simp only [BigEndian2, WriteBigEndian2, List.getD_cons_zero,
      List.getD_cons_succ]
    rw [shiftLeft_lor_eq _ hq, and_255_eq_mod, Nat.shiftRight_eq_div_pow]
    norm_num
    omega
  · intro hy
    have h0 : y &&& 0xff < 2 ^ 8 := by
      rw [and_255_eq_mod]; omega
    have h1 : (y >>> 8) &&& 0xff < 2 ^ 8 := by
      rw [and_255_eq_mod]; omega
    have h2 : (y >>> 16) &&& 0xff < 2 ^ 8 := by
      rw [and_255_eq_mod]; omega
    simp only [BigEndian4, WriteBigEndian4, List.getD_cons_zero,
      List.getD_cons_succ]
    rw [Nat.or_assoc, Nat.or_assoc]
    rw [shiftLeft_lor_eq _ h0]
    rw [shiftLeft_lor_eq _ (show 2 ^ 8 * ((y >>> 8) &&& 0xff) + (y &&& 0xff)
      < 2 ^ 16 by rw [and_255_eq_mod, and_255_eq_mod]; omega)]
    rw [shiftLeft_lor_eq _ (show 2 ^ 16 * ((y >>> 16) &&& 0xff) +
      (2 ^ 8 * ((y >>> 8) &&& 0xff) + (y &&& 0xff)) < 2 ^ 24 by
        rw [and_255_eq_mod, and_255_eq_mod, and_255_eq_mod]; omega)]
    simp only [and_255_eq_mod, Nat.shiftRight_eq_div_pow]
    norm_num
    omega

/-- C8 witness: the round trip evaluated at `0x1234` and `0xDEADBEEF`. -/
theorem bigEndian_roundtrip_witness :
    BigEndian2 (WriteBigEndian2 0x1234) = 0x1234 ∧
    BigEndian4 (WriteBigEndian4 0xDEADBEEF) = 0xDEADBEEF :=
  ⟨(bigEndian_roundtrip 0x1234 0xDEADBEEF).1 (by norm_num),
   (bigEndian_roundtrip 0x1234 0xDEADBEEF).2 (by norm_num)⟩

/-- C3 counterexample: the claim demands the volume-size formula be
evaluated in exact integer arithmetic for all field values, but the C++
multiplication `(allocation_block_size_ / 512) * num_allocation_blocks_`
happens in `uint32_t`. With allocation block size `0x80000000` (a
multiple of 512) and 1024 allocation blocks the product `2^32` wraps to
0, so `Valid` returns 2 instead of the exact `2 + 2^32`. -/
theorem hfsValid_overflow_counterexample :
    (({ signature := 0x4244, volume_creation_date := 0,
        last_modification_date := 0, volume_attributes := 0,
        num_files_root_directory := 0, volume_bitmap_block := 0,
        next_allocation_search := 0, num_allocation_blocks := 1024,
        allocation_block_size := 0x80000000, default_clump_size := 0,
        first_allocation_block := 0, next_unused_catalog_node_id := 0,
        num_free_allocation_blocks := 0, volume_name_length := 0,
        volume_name_bytes := [] } : HFSMasterDirectoryBlock).Valid
      = .ok 2) ∧
    (0 + 2) + (0x80000000 / 512) * 1024 ≠ 2 := by
  constructor
  · rfl
  · norm_num

/-- C3 amended: `Valid` fails on a bad signature or a misaligned
allocation block size, and otherwise returns
`(first_allocation_block + 2) + ((allocation_block_size / 512) *
num_allocation_blocks) % 2^32` — the declared-size formula with the
multiplication reduced modulo `2^32` (the `uint32_t` in which the C++
computes it), exact in all other respects. -/
theorem hfsValid_amended (m : HFSMasterDirectoryBlock)
    (hfab : m.first_allocation_block < 2 ^ 16) :
    (m.signature ≠ 0x4244 → m.Valid = .error (.badSignature m.signature)) ∧
    (m.signature = 0x4244 → m.allocation_block_size % 512 ≠ 0 →
      m.Valid = .error (.badAllocationSize m.allocation_block_size)) ∧
    (m.signature = 0x4244 → m.allocation_block_size % 512 = 0 →
      m.Valid = .ok ((m.first_allocation_block + 2) +
        ((m.allocation_block_size / 512) * m.num_allocation_blocks)
          % 2 ^ 32)) := by
  refine ⟨fun hs => ?_, fun hs hm => ?_, fun hs hm => ?_⟩
  · simp [HFSMasterDirectoryBlock.Valid, hs]
  · simp [HFSMasterDirectoryBlock.Valid, hs, hm]
  · simp only [HFSMasterDirectoryBlock.Valid, hs, hm]
    norm_num
    omega

/-- C3 witness: the amended theorem at a concrete valid block
(allocation block size 1024, 3 allocation blocks, first block 5). -/
theorem hfsValid_amended_witness :
    ({ signature := 0x4244, volume_creation_date := 0,
       last_modification_date := 0, volume_attributes := 0,
       num_files_root_directory := 0, volume_bitmap_block := 0,
       next_allocation_search := 0, num_allocation_blocks := 3,
       allocation_block_size := 1024, default_clump_size := 0,
       first_allocation_block := 5, next_unused_catalog_node_id := 0,
       num_free_allocation_blocks := 0, volume_name_length := 0,
       volume_name_bytes := [] } : HFSMasterDirectoryBlock).Valid
      = .ok ((5 + 2) + ((1024 / 512) * 3) % 2 ^ 32) :=
  (hfsValid_amended _ (by norm_num)).2.2 rfl rfl

/-- C4: `CreateForHFS` rejects names longer than 63 bytes; otherwise it
maps block count 800 to (disk-format 0, format byte 0x12), 1600 to
(1, 0x22), 1440 to (2, 0x22), 2880 to (3, 0x22), rejects every other
block count, and every header it produces carries magic field 0x0100. -/
theorem createForHFS_spec (name : List Nat) (dbc dck tbc tck : Nat) :
    (63 < name.length →
      CreateForHFS name dbc dck tbc tck = .error (.nameTooLong name.length)) ∧
    (name.length ≤ 63 →
      (dbc = 800 → ∃ h, CreateForHFS name dbc dck tbc tck = .ok h ∧
        h.disk_format = 0 ∧ h.format_byte = 0x12 ∧ h.priv = 0x100) ∧
      (dbc = 1600 → ∃ h, CreateForHFS name dbc dck tbc tck = .ok h ∧
        h.disk_format = 1 ∧ h.format_byte = 0x22 ∧ h.priv = 0x100) ∧
      (dbc = 1440 → ∃ h, CreateForHFS name dbc dck tbc tck = .ok h ∧
        h.disk_format = 2 ∧ h.format_byte = 0x22 ∧ h.priv = 0x100) ∧
      (dbc = 2880 → ∃ h, CreateForHFS name dbc dck tbc tck = .ok h ∧
        h.disk_format = 3 ∧ h.format_byte = 0x22 ∧ h.priv = 0x100) ∧
      (dbc ≠ 800 → dbc ≠ 1600 → dbc ≠ 1440 → dbc ≠ 2880 →
        CreateForHFS name dbc dck tbc tck = .error (.badBlockCount dbc))) := by
  constructor
  · intro hl
    simp [CreateForHFS, hl]
  · intro hl
    have hnl : ¬ name.length > 63 := by omega
    refine ⟨fun hc => ?_, fun hc => ?_, fun hc => ?_, fun hc => ?_,
      fun n1 n2 n3 n4 => ?_⟩ <;> subst_vars
    · exact ⟨DiskCopyHeader.ofFields name 409600 tbc dck tck 0 18,
        by simp [CreateForHFS, hnl],
        by simp [DiskCopyHeader.ofFields],
        by simp [DiskCopyHeader.ofFields], rfl⟩
    · exact ⟨DiskCopyHeader.ofFields name 819200 tbc dck tck 1 34,
        by simp [CreateForHFS, hnl],
        by simp [DiskCopyHeader.ofFields],
        by simp [DiskCopyHeader.ofFields], rfl⟩
    · exact ⟨DiskCopyHeader.ofFields name 737280 tbc dck tck 2 34,
        by simp [CreateForHFS, hnl],
        by simp [DiskCopyHeader.ofFields],
        by simp [DiskCopyHeader.ofFields], rfl⟩
    · exact ⟨DiskCopyHeader.ofFields name 1474560 tbc dck tck 3 34,
        by simp [CreateForHFS, hnl],
        by simp [DiskCopyHeader.ofFields],
        by simp [DiskCopyHeader.ofFields], rfl⟩
    · have m1 : ¬ (800 = dbc) := fun e => n1 e.symm
      have m2 : ¬ (1600 = dbc) := fun e => n2 e.symm
      have m3 : ¬ (1440 = dbc) := fun e => n3 e.symm
      have m4 : ¬ (2880 = dbc) := fun e => n4 e.symm
      simp [CreateForHFS, hnl, m1, m2, m3, m4]

/-- C4 witness: empty name, block count 800. -/
theorem createForHFS_spec_witness :
    ∃ h, CreateForHFS [] 800 1 2 3 = .ok h ∧
      h.disk_format = 0 ∧ h.format_byte = 0x12 ∧ h.priv = 0x100 :=
  ((createForHFS_spec [] 800 1 2 3).2 (by norm_num)).1 rfl

/-- C6: a header whose magic (`private_`) field differs from 0x0100 is
rejected by `Validate` with the bad-magic error, even when every other
field satisfies its own validation rule. -/
theorem validate_rejects_bad_magic (h : DiskCopyHeader)
    (hnl : h.name_length ≤ 63)
    (hdf : h.disk_format = 0 ∨ h.disk_format = 1 ∨ h.disk_format = 2 ∨
      h.disk_format = 3)
    (hfb : h.format_byte = 0x02 ∨ h.format_byte = 0x12 ∨
      h.format_byte = 0x22 ∨ h.format_byte = 0x24)
    (hds : h.data_size % 2 = 0)
    (hp : h.priv ≠ 0x100) :
    h.Validate = .error (.badMagic h.priv) := by
  have hnl' : ¬ h.name_length > 63 := by omega
  rcases hdf with h1 | h1 | h1 | h1 <;> rcases hfb with h2 | h2 | h2 | h2 <;>
    simp [DiskCopyHeader.Validate, DiskFormatByte, FormatByte, hnl', h1, h2,
      hp]

/-- C6 witness: a header valid in every respect except a zero magic
field. -/
theorem validate_rejects_bad_magic_witness :
    ({ name_length := 0, name_bytes := List.replicate 63 0, data_size := 512,
       tag_size := 0, header_data_checksum := 0, header_tag_checksum := 0,
       disk_format := 0, format_byte := 0x12, priv := 0 } :
       DiskCopyHeader).Validate = .error (.badMagic 0) :=
  validate_rejects_bad_magic _ (by norm_num) (by norm_num) (by norm_num)
    (by norm_num) (by norm_num)

/-- C7: a header satisfying every validation rule passes `Validate`,
which returns the total container size `84 + data_size + tag_size`
(computed, as in the `uint32_t` C++, modulo `2^32`). -/
theorem validate_returns_total_size (h : DiskCopyHeader)
    (hnl : h.name_length ≤ 63)
    (hdf : h.disk_format = 0 ∨ h.disk_format = 1 ∨ h.disk_format = 2 ∨
      h.disk_format = 3)
    (hfb : h.format_byte = 0x02 ∨ h.format_byte = 0x12 ∨
      h.format_byte = 0x22 ∨ h.format_byte = 0x24)
    (hp : h.priv = 0x100)
    (hds : h.data_size % 2 = 0)
    (hd : h.data_size < 2 ^ 32) (ht : h.tag_size < 2 ^ 32) :
    h.Validate = .ok ((84 + h.data_size + h.tag_size) % 2 ^ 32) := by
  have hnl' : ¬ h.name_length > 63 := by omega
  rcases hdf with h1 | h1 | h1 | h1 <;> rcases hfb with h2 | h2 | h2 | h2 <;>
    simp [DiskCopyHeader.Validate, DiskFormatByte, FormatByte, CheckEven,
      DiskCopyHeader.TotalFileSize, Nat.mod_one, hnl', h1, h2, hp] <;>
    omega

/-- C7 witness: a fully well-formed header with 512 data bytes and 12
tag bytes. -/
theorem validate_returns_total_size_witness :
    ({ name_length := 2, name_bytes := List.replicate 63 0, data_size := 512,
       tag_size := 12, header_data_checksum := 5, header_tag_checksum := 6,
       disk_format := 1, format_byte := 0x22, priv := 0x100 } :
       DiskCopyHeader).Validate = .ok ((84 + 512 + 12) % 2 ^ 32) :=
  validate_returns_total_size _ (by norm_num) (by norm_num) (by norm_num)
    rfl (by norm_num) (by norm_num) (by norm_num)

/-- Shared helper: `Validate` succeeds on any header whose fields pass
every check, returning `TotalFileSize` (the `uint32_t` sum). -/
theorem validate_ok (h : DiskCopyHeader)
    (hnl : h.name_length ≤ 63)
    (hdf : h.disk_format = 0 ∨ h.disk_format = 1 ∨ h.disk_format = 2 ∨
      h.disk_format = 3)
    (hfb : h.format_byte = 0x02 ∨ h.format_byte = 0x12 ∨
      h.format_byte = 0x22 ∨ h.format_byte = 0x24)
    (hp : h.priv = 0x100) :
    h.Validate = .ok ((h.data_size + h.tag_size + 84) % 2 ^ 32) := by
  have hnl' : ¬ h.name_length > 63 := by omega
  rcases hdf with h1 | h1 | h1 | h1 <;> rcases hfb with h2 | h2 | h2 | h2 <;>
    simp [DiskCopyHeader.Validate, DiskFormatByte, FormatByte, CheckEven,
      DiskCopyHeader.TotalFileSize, Nat.mod_one, hnl', h1, h2, hp]

/-- C10: every header a successful `CreateForHFS` call produces passes
`Validate`, which returns `84 + 512 * block_count + tag_byte_count`
(modulo `2^32`, the `uint32_t` in which the total is carried): the
factory can never produce a record the validator rejects. -/
theorem createForHFS_validates (name : List Nat)
    (dbc dck tbc tck : Nat) (h : DiskCopyHeader)
    (hl : name.length ≤ 63) (htb : tbc < 2 ^ 32)
    (hdbc : dbc = 800 ∨ dbc = 1600 ∨ dbc = 1440 ∨ dbc = 2880)
    (hcreate : CreateForHFS name dbc dck tbc tck = .ok h) :
    h.Validate = .ok ((84 + 512 * dbc + tbc) % 2 ^ 32) := by
  have hnl : ¬ name.length > 63 := by omega
  rcases hdbc with hc | hc | hc | hc <;> subst hc <;>
    simp [CreateForHFS, hnl] at hcreate <;> subst hcreate
  · rw [validate_ok _ (by simp [DiskCopyHeader.ofFields])
      (Or.inl (by norm_num [DiskCopyHeader.ofFields]))
      (Or.inr (Or.inl (by norm_num [DiskCopyHeader.ofFields]))) rfl]
    have e1 : (DiskCopyHeader.ofFields name 409600 tbc dck tck 0 18).data_size
        = 409600 := by norm_num [DiskCopyHeader.ofFields]
    have e2 : (DiskCopyHeader.ofFields name 409600 tbc dck tck 0 18).tag_size
        = tbc := by
      simp only [DiskCopyHeader.ofFields]
      omega
    rw [e1, e2, show 409600 + tbc + 84 = 84 + 512 * 800 + tbc by omega]
  · rw [validate_ok _ (by simp [DiskCopyHeader.ofFields])
      (Or.inr (Or.inl (by norm_num [DiskCopyHeader.ofFields])))
      (Or.inr (Or.inr (Or.inl (by norm_num [DiskCopyHeader.ofFields])))) rfl]
    have e1 : (DiskCopyHeader.ofFields name 819200 tbc dck tck 1 34).data_size
        = 819200 := by norm_num [DiskCopyHeader.ofFields]
    have e2 : (DiskCopyHeader.ofFields name 819200 tbc dck tck 1 34).tag_size
        = tbc := by
      simp only [DiskCopyHeader.ofFields]
      omega
    rw [e1, e2, show 819200 + tbc + 84 = 84 + 512 * 1600 + tbc by omega]
  · rw [validate_ok _ (by simp [DiskCopyHeader.ofFields])
      (Or.inr (Or.inr (Or.inl (by norm_num [DiskCopyHeader.ofFields]))))
      (Or.inr (Or.inr (Or.inl (by norm_num [DiskCopyHeader.ofFields])))) rfl]
    have e1 : (DiskCopyHeader.ofFields name 737280 tbc dck tck 2 34).data_size
        = 737280 := by norm_num [DiskCopyHeader.ofFields]
    have e2 : (DiskCopyHeader.ofFields name 737280 tbc dck tck 2 34).tag_size
        = tbc := by
      simp only [DiskCopyHeader.ofFields]
      omega
    rw [e1, e2, show 737280 + tbc + 84 = 84 + 512 * 1440 + tbc by omega]
  · rw [validate_ok _ (by simp [DiskCopyHeader.ofFields])
      (Or.inr (Or.inr (Or.inr (by norm_num [DiskCopyHeader.ofFields]))))
      (Or.inr (Or.inr (Or.inl (by norm_num [DiskCopyHeader.ofFields])))) rfl]
    have e1 : (DiskCopyHeader.ofFields name 1474560 tbc dck tck 3 34).data_size
        = 1474560 := by norm_num [DiskCopyHeader.ofFields]
    have e2 : (DiskCopyHeader.ofFields name 1474560 tbc dck tck 3 34).tag_size
        = tbc := by
      simp only [DiskCopyHeader.ofFields]
      omega
    rw [e1, e2, show 1474560 + tbc + 84 = 84 + 512 * 2880 + tbc by omega]

/-- C10 witness: the empty-named 800-block header from the factory
validates to 84 + 512·800 bytes. -/
theorem createForHFS_validates_witness :
    (DiskCopyHeader.ofFields [] 409600 0 0 0 0 18).Validate
      = .ok ((84 + 512 * 800 + 0) % 2 ^ 32) :=
  createForHFS_validates [] 800 0 0 0 _ (by norm_num) (by norm_num)
    (Or.inl rfl) rfl

/-! ### Round trip of the 84-byte header codec (C5) -/

/-- Indexing past an initial segment indexes the tail. -/
theorem getD_append_right (l₁ l₂ : List Nat) (k d : Nat) :
    (l₁ ++ l₂).getD (l₁.length + k) d = l₂.getD k d := by
  induction l₁ with
  | nil => simp
  | cons a t ih =>
      simp only [List.cons_append, List.length_cons]
      rw [show t.length + 1 + k = (t.length + k) + 1 by omega,
        List.getD_cons_succ]
      exact ih

/-- Re-encoding the 16-bit value decoded from two bytes yields the two
bytes again. -/
theorem wbe2_be2_cons (a b : Nat) (r : List Nat) (ha : a < 256)
    (hb : b < 256) :
    WriteBigEndian2 (BigEndian2 (a :: b :: r)) = [a, b] := by
  have hN : BigEndian2 (a :: b :: r) = 2 ^ 8 * a + b := by
    simp only [BigEndian2, List.getD_cons_zero, List.getD_cons_succ]
    rw [shiftLeft_lor_eq a (show b < 2 ^ 8 by omega)]
  rw [hN]
  simp only [WriteBigEndian2, and_255_eq_mod, Nat.shiftRight_eq_div_pow]
  norm_num
  omega

/-- Re-encoding the 32-bit value decoded from four bytes yields the four
bytes again. -/
theorem wbe4_be4_cons (a b c d : Nat) (r : List Nat) (ha : a < 256)
    (hb : b < 256) (hc : c < 256) (hd : d < 256) :
    WriteBigEndian4 (BigEndian4 (a :: b :: c :: d :: r)) = [a, b, c, d] := by
  have hN : BigEndian4 (a :: b :: c :: d :: r)
      = 2 ^ 24 * a + (2 ^ 16 * b + (2 ^ 8 * c + d)) := by
    simp only [BigEndian4, List.getD_cons_zero, List.getD_cons_succ]
    rw [Nat.or_assoc, Nat.or_assoc]
    rw [shiftLeft_lor_eq c (show d < 2 ^ 8 by omega)]
    rw [shiftLeft_lor_eq b (show 2 ^ 8 * c + d < 2 ^ 16 by omega)]
    rw [shiftLeft_lor_eq a
      (show 2 ^ 16 * b + (2 ^ 8 * c + d) < 2 ^ 24 by omega)]
  rw [hN]
  simp only [WriteBigEndian4, and_255_eq_mod, Nat.shiftRight_eq_div_pow]
  norm_num
  omega

/-- A list of length `n + 1` splits into a head and a length-`n` tail. -/
theorem exists_cons_of_length (l : List Nat) (n : Nat)
    (h : l.length = n + 1) : ∃ a t, l = a :: t ∧ t.length = n := by
  cases l with
  | nil => simp at h
  | cons a t => exact ⟨a, t, rfl, by simpa using h⟩

/-- The header round trip on a buffer presented in segmented form: name
length byte, 63 name bytes, and the 20 trailing fixed-field bytes. -/
theorem header_roundtrip_seg (b0 : Nat) (nm : List Nat)
    (d0 d1 d2 d3 t0 t1 t2 t3 c0 c1 c2 c3 k0 k1 k2 k3 df fb p0 p1 : Nat)
    (hnm : nm.length = 63) (hb0 : b0 < 256)
    (hd0 : d0 < 256) (hd1 : d1 < 256) (hd2 : d2 < 256) (hd3 : d3 < 256)
    (ht0 : t0 < 256) (ht1 : t1 < 256) (ht2 : t2 < 256) (ht3 : t3 < 256)
    (hc0 : c0 < 256) (hc1 : c1 < 256) (hc2 : c2 < 256) (hc3 : c3 < 256)
    (hk0 : k0 < 256) (hk1 : k1 < 256) (hk2 : k2 < 256) (hk3 : k3 < 256)
    (hdf : df < 256) (hfb : fb < 256) (hp0 : p0 < 256) (hp1 : p1 < 256) :
    (DiskCopyHeader.ofBytes (b0 :: (nm ++ [d0, d1, d2, d3, t0, t1, t2, t3,
      c0, c1, c2, c3, k0, k1, k2, k3, df, fb, p0, p1]))).WriteToDisk
      = b0 :: (nm ++ [d0, d1, d2, d3, t0, t1, t2, t3, c0, c1, c2, c3,
        k0, k1, k2, k3, df, fb, p0, p1]) := by
  have e_name : ((b0 :: (nm ++ [d0, d1, d2, d3, t0, t1, t2, t3, c0, c1, c2,
      c3, k0, k1, k2, k3, df, fb, p0, p1])).drop 1).take 63 = nm := by
    show ((nm ++ [d0, d1, d2, d3, t0, t1, t2, t3, c0, c1, c2, c3, k0, k1, k2,
      k3, df, fb, p0, p1])).take 63 = nm
    exact List.take_left' hnm
  have e_ds : (b0 :: (nm ++ [d0, d1, d2, d3, t0, t1, t2, t3, c0, c1, c2, c3,
      k0, k1, k2, k3, df, fb, p0, p1])).drop 64
      = d0 :: d1 :: d2 :: d3 :: [t0, t1, t2, t3, c0, c1, c2, c3, k0, k1, k2,
        k3, df, fb, p0, p1] := by
    show (nm ++ [d0, d1, d2, d3, t0, t1, t2, t3, c0, c1, c2, c3, k0, k1, k2,
      k3, df, fb, p0, p1]).drop 63 = _
    rw [List.drop_left' hnm]
  have e_ts : (b0 :: (nm ++ [d0, d1, d2, d3, t0, t1, t2, t3, c0, c1, c2, c3,
      k0, k1, k2, k3, df, fb, p0, p1])).drop 68
      = t0 :: t1 :: t2 :: t3 :: [c0, c1, c2, c3, k0, k1, k2, k3, df, fb,
        p0, p1] := by
    show (nm ++ [d0, d1, d2, d3, t0, t1, t2, t3, c0, c1, c2, c3, k0, k1, k2,
      k3, df, fb, p0, p1]).drop 67 = _
    rw [show (67 : Nat) = 63 + 4 from rfl, ← List.drop_drop,
      List.drop_left' hnm]
    rfl
  have e_cs : (b0 :: (nm ++ [d0, d1, d2, d3, t0, t1, t2, t3, c0, c1, c2, c3,
      k0, k1, k2, k3, df, fb, p0, p1])).drop 72
      = c0 :: c1 :: c2 :: c3 :: [k0, k1, k2, k3, df, fb, p0, p1] := by
    show (nm ++ [d0, d1, d2, d3, t0, t1, t2, t3, c0, c1, c2, c3, k0, k1, k2,
      k3, df, fb, p0, p1]).drop 71 = _
    rw [show (71 : Nat) = 63 + 8 from rfl, ← List.drop_drop,
      List.drop_left' hnm]
    rfl
  have e_ks : (b0 :: (nm ++ [d0, d1, d2, d3, t0, t1, t2, t3, c0, c1, c2, c3,
      k0, k1, k2, k3, df, fb, p0, p1])).drop 76
      = k0 :: k1 :: k2 :: k3 :: [df, fb, p0, p1] := by
    show (nm ++ [d0, d1, d2, d3, t0, t1, t2, t3, c0, c1, c2, c3, k0, k1, k2,
      k3, df, fb, p0, p1]).drop 75 = _
    rw [show (75 : Nat) = 63 + 12 from rfl, ← List.drop_drop,
      List.drop_left' hnm]
    rfl
  have e_df : (b0 :: (nm ++ [d0, d1, d2, d3, t0, t1, t2, t3, c0, c1, c2, c3,
      k0, k1, k2, k3, df, fb, p0, p1])).getD 80 0 = df := by
    show (nm ++ [d0, d1, d2, d3, t0, t1, t2, t3, c0, c1, c2, c3, k0, k1, k2,
      k3, df, fb, p0, p1]).getD 79 0 = df
    rw [show (79 : Nat) = nm.length + 16 by omega, getD_append_right]
    rfl
  have e_fb : (b0 :: (nm ++ [d0, d1, d2, d3, t0, t1, t2, t3, c0, c1, c2, c3,
      k0, k1, k2, k3, df, fb, p0, p1])).getD 81 0 = fb := by
    show (nm ++ [d0, d1, d2, d3, t0, t1, t2, t3, c0, c1, c2, c3, k0, k1, k2,
      k3, df, fb, p0, p1]).getD 80 0 = fb
    rw [show (80 : Nat) = nm.length + 17 by omega, getD_append_right]
    rfl
  have e_pr : (b0 :: (nm ++ [d0, d1, d2, d3, t0, t1, t2, t3, c0, c1, c2, c3,
      k0, k1, k2, k3, df, fb, p0, p1])).drop 82 = p0 :: p1 :: [] := by
    show (nm ++ [d0, d1, d2, d3, t0, t1, t2, t3, c0, c1, c2, c3, k0, k1, k2,
      k3, df, fb, p0, p1]).drop 81 = _
    rw [show (81 : Nat) = 63 + 18 from rfl, ← List.drop_drop,
      List.drop_left' hnm]
    rfl
  simp only [DiskCopyHeader.WriteToDisk, DiskCopyHeader.ofBytes,
    List.getD_cons_zero, e_name, e_ds, e_ts, e_cs, e_ks, e_df, e_fb, e_pr]
  rw [List.take_left' hnm]
  rw [wbe4_be4_cons _ _ _ _ _ hd0 hd1 hd2 hd3,
    wbe4_be4_cons _ _ _ _ _ ht0 ht1 ht2 ht3,
    wbe4_be4_cons _ _ _ _ _ hc0 hc1 hc2 hc3,
    wbe4_be4_cons _ _ _ _ _ hk0 hk1 hk2 hk3,
    wbe2_be2_cons _ _ _ hp0 hp1]
  rw [Nat.mod_eq_of_lt hb0, Nat.mod_eq_of_lt hdf, Nat.mod_eq_of_lt hfb]
  simp

/-- C5: decoding a syntactically well-formed 84-byte header buffer and
re-encoding the record reproduces the original bytes exactly, across the
name length byte, the 63 name bytes, the four big-endian 32-bit fields,
the two format bytes, and the 16-bit magic field. -/
theorem header_roundtrip (bytes : List Nat) (hlen : bytes.length = 84)
    (hb : ∀ b ∈ bytes, b < 256) :
    (DiskCopyHeader.ofBytes bytes).WriteToDisk = bytes := by
  obtain ⟨b0, t, rfl⟩ : ∃ b0 t, bytes = b0 :: t := by
    cases bytes with
    | nil => simp at hlen
    | cons a l => exact ⟨a, l, rfl⟩
  have hlt : t.length = 83 := by simpa using hlen
  have h20 : (t.drop 63).length = 20 := by simp [hlt]
  obtain ⟨d0, R1, hE, hL1⟩ := exists_cons_of_length (t.drop 63) 19 h20
  obtain ⟨d1, R2, rfl, hL2⟩ := exists_cons_of_length R1 18 hL1
  obtain ⟨d2, R3, rfl, hL3⟩ := exists_cons_of_length R2 17 hL2
  obtain ⟨d3, R4, rfl, hL4⟩ := exists_cons_of_length R3 16 hL3
  obtain ⟨t0, R5, rfl, hL5⟩ := exists_cons_of_length R4 15 hL4
  obtain ⟨t1, R6, rfl, hL6⟩ := exists_cons_of_length R5 14 hL5
  obtain ⟨t2, R7, rfl, hL7⟩ := exists_cons_of_length R6 13 hL6
  obtain ⟨t3, R8, rfl, hL8⟩ := exists_cons_of_length R7 12 hL7
  obtain ⟨c0, R9, rfl, hL9⟩ := exists_cons_of_length R8 11 hL8
  obtain ⟨c1, R10, rfl, hL10⟩ := exists_cons_of_length R9 10 hL9
  obtain ⟨c2, R11, rfl, hL11⟩ := exists_cons_of_length R10 9 hL10
  obtain ⟨c3, R12, rfl, hL12⟩ := exists_cons_of_length R11 8 hL11
  obtain ⟨k0, R13, rfl, hL13⟩ := exists_cons_of_length R12 7 hL12
  obtain ⟨k1, R14, rfl, hL14⟩ := exists_cons_of_length R13 6 hL13
  obtain ⟨k2, R15, rfl, hL15⟩ := exists_cons_of_length R14 5 hL14
  obtain ⟨k3, R16, rfl, hL16⟩ := exists_cons_of_length R15 4 hL15
  obtain ⟨df, R17, rfl, hL17⟩ := exists_cons_of_length R16 3 hL16
  obtain ⟨fb, R18, rfl, hL18⟩ := exists_cons_of_length R17 2 hL17
  obtain ⟨p0, R19, rfl, hL19⟩ := exists_cons_of_length R18 1 hL18
  obtain ⟨p1, R20, rfl, hL20⟩ := exists_cons_of_length R19 0 hL19
  obtain rfl : R20 = [] := List.length_eq_zero.mp hL20
  have hmem : ∀ a, a ∈ t.drop 63 → a < 256 := fun a ha =>
    hb a (List.mem_cons_of_mem _ (List.mem_of_mem_drop ha))
  rw [hE] at hmem
  have hsplit : b0 :: t = b0 :: (t.take 63 ++ [d0, d1, d2, d3, t0, t1, t2,
      t3, c0, c1, c2, c3, k0, k1, k2, k3, df, fb, p0, p1]) := by
    rw [← hE, List.take_append_drop]
  rw [hsplit]
  exact header_roundtrip_seg b0 (t.take 63) d0 d1 d2 d3 t0 t1 t2 t3 c0 c1 c2
    c3 k0 k1 k2 k3 df fb p0 p1 (by simp [hlt]) (hb b0 (by simp))
    (hmem d0 (by simp)) (hmem d1 (by simp)) (hmem d2 (by simp))
    (hmem d3 (by simp)) (hmem t0 (by simp)) (hmem t1 (by simp))
    (hmem t2 (by simp)) (hmem t3 (by simp)) (hmem c0 (by simp))
    (hmem c1 (by simp)) (hmem c2 (by simp)) (hmem c3 (by simp))
    (hmem k0 (by simp)) (hmem k1 (by simp)) (hmem k2 (by simp))
    (hmem k3 (by simp)) (hmem df (by simp)) (hmem fb (by simp))
    (hmem p0 (by simp)) (hmem p1 (by simp))

/-- C5 witness: the round trip evaluated on the 84-byte buffer
`0, 1, ..., 83`. -/
theorem header_roundtrip_witness :
    (DiskCopyHeader.ofBytes (List.range 84)).WriteToDisk = List.range 84 :=
  header_roundtrip (List.range 84) (by simp)
    (fun b hbm => by
      simp only [List.mem_range] at hbm
      omega)

/-! ### Chunked stream feeding equals contiguous feeding (C9) -/

/-- The abstract word-level semantics of the checksum loops: fold
`UpdateSum` over consecutive big-endian byte pairs. -/
def foldWords (sum : Nat) : List Nat → Nat
  | a :: b :: rest => foldWords (UpdateSum sum ((a <<< 8) ||| b)) rest
  | _ => sum

/-- The indexed `for` loop of `UpdateSumFromBlock` computes the word
fold of the first `n - c` bytes after position `c`. -/
theorem blockLoop_eq_foldWords (k : Nat) :
    ∀ (sum c n : Nat) (buffer : List Nat), n - c = k → (n - c) % 2 = 0 →
      n ≤ buffer.length →
      blockLoop sum buffer c n = foldWords sum ((buffer.drop c).take (n - c)) := by
  induction k using Nat.strong_induction_on with
  | _ k IH =>
    intro sum c n buffer hk he hlen
    by_cases hc : c < n
    · have h2 : 2 ≤ n - c := by omega
      have hdl : 2 ≤ (buffer.drop c).length := by
        rw [List.length_drop]; omega
      rcases hd : buffer.drop c with _ | ⟨a, r⟩
      · rw [hd] at hdl; simp at hdl
      rcases hr : r with _ | ⟨b, r2⟩
      · rw [hd, hr] at hdl; simp at hdl
      rw [blockLoop, if_pos hc]
      have hbe : BigEndian2 (buffer.drop c) = (a <<< 8) ||| b := by
        rw [hd, hr]; simp [BigEndian2]
      have hdrop2 : buffer.drop (c + 2) = r2 := by
        have hh : buffer.drop (c + 2) = (buffer.drop c).drop 2 := by
          rw [List.drop_drop]
        rw [hh, hd, hr]
        rfl
      have hrec := IH (k - 2) (by omega) (UpdateSum sum ((a <<< 8) ||| b))
        (c + 2) n buffer (by omega) (by omega) hlen
      rw [hbe, hrec, hdrop2]
      have htake : (a :: b :: r2).take (n - c)
          = a :: b :: r2.take (n - (c + 2)) := by
        rw [show n - c = (n - (c + 2)) + 1 + 1 by omega]
        simp
      rw [htake, foldWords]
    · rw [blockLoop, if_neg hc]
      rw [show n - c = 0 by omega]
      simp [foldWords]

/-- Feeding a concatenation of an even-length prefix and a tail equals
feeding them in sequence. -/
theorem foldWords_append : ∀ (l1 : List Nat), l1.length % 2 = 0 →
    ∀ (l2 : List Nat) (sum : Nat),
      foldWords sum (l1 ++ l2) = foldWords (foldWords sum l1) l2
  | [] => by
      intro h l2 sum
      simp [foldWords]
  | [a] => by
      intro h
      simp at h
  | a :: b :: rest => by
      intro h l2 sum
      have hr : rest.length % 2 = 0 := by
        simp [List.length_cons] at h
        omega
      simp only [List.cons_append]
      rw [foldWords, foldWords]
      exact foldWords_append rest hr l2 (UpdateSum sum ((a <<< 8) ||| b))

/-- When the stream holds enough bytes, the chunked read loop succeeds
with the word fold of the requested region. -/
theorem fileLoop_ok (remaining : Nat) :
    remaining % 2 = 0 → ∀ (sum : Nat) (stream : List Nat) (read : Nat),
      remaining ≤ stream.length →
      fileLoop sum stream remaining read
        = .ok (foldWords sum (stream.take remaining)) := by
  induction remaining using Nat.strong_induction_on with
  | _ remaining IH =>
    intro he sum stream read hlen
    by_cases h0 : remaining = 0
    · subst h0
      rw [fileLoop]
      simp [foldWords]
    · rw [fileLoop, if_neg h0]
      have hm : ¬ stream.length < min remaining 1024 := by omega
      simp only [hm, if_false]
      have hblock : UpdateSumFromBlock sum (stream.take (min remaining 1024))
          (min remaining 1024)
          = .ok (blockLoop sum (stream.take (min remaining 1024)) 0
              (min remaining 1024)) := by
        simp [UpdateSumFromBlock, CheckEven, Nat.mod_one]
      have hbl : blockLoop sum (stream.take (min remaining 1024)) 0
          (min remaining 1024)
          = foldWords sum (stream.take (min remaining 1024)) := by
        rw [blockLoop_eq_foldWords (min remaining 1024) sum 0
          (min remaining 1024) (stream.take (min remaining 1024))
          (by omega) (by omega) (by simp [List.length_take]; omega)]
        simp [List.take_take]
      have hrec := IH (remaining - min remaining 1024) (by omega) (by omega)
        (foldWords sum (stream.take (min remaining 1024)))
        (stream.drop (min remaining 1024)) (read + min remaining 1024)
        (by simp [List.length_drop]; omega)
      rw [hblock, hbl]
      show fileLoop (foldWords sum (stream.take (min remaining 1024)))
          (stream.drop (min remaining 1024)) (remaining - min remaining 1024)
          (read + min remaining 1024)
        = Except.ok (foldWords sum (stream.take remaining))
      rw [hrec]
      have hsplit : stream.take remaining
          = stream.take (min remaining 1024)
            ++ (stream.drop (min remaining 1024)).take
                (remaining - min remaining 1024) := by
        rw [← List.take_add]
        rw [show min remaining 1024 + (remaining - min remaining 1024)
          = remaining by omega]
      rw [hsplit, foldWords_append _ (by simp [List.length_take]; omega)]

/-- When the stream holds fewer bytes than requested, the chunked read
loop fails at the first short chunk, reporting the bytes read so far
(the largest multiple of the 1024-byte chunk below the stream length). -/
theorem fileLoop_fail (remaining : Nat) :
    remaining % 2 = 0 → ∀ (sum : Nat) (stream : List Nat) (read : Nat),
      stream.length < remaining →
      fileLoop sum stream remaining read
        = .error (.readFailed
            (min (remaining - 1024 * (stream.length / 1024)) 1024)
            (read + 1024 * (stream.length / 1024))
            (remaining - 1024 * (stream.length / 1024))) := by
  induction remaining using Nat.strong_induction_on with
  | _ remaining IH =>
    intro he sum stream read hlen
    have h0 : ¬ remaining = 0 := by omega
    rw [fileLoop, if_neg h0]
    by_cases hm : stream.length < min remaining 1024
    · simp only [hm, if_true]
      have hq : stream.length / 1024 = 0 := by omega
      rw [hq]
      rw [show min (remaining - 1024 * 0) 1024 = min remaining 1024 by omega]
      rw [show read + 1024 * 0 = read by omega]
      rw [show remaining - 1024 * 0 = remaining by omega]
    · simp only [hm, if_false]
      have hch : min remaining 1024 = 1024 := by omega
      have hblock : UpdateSumFromBlock sum (stream.take (min remaining 1024))
          (min remaining 1024)
          = .ok (blockLoop sum (stream.take (min remaining 1024)) 0
              (min remaining 1024)) := by
        simp [UpdateSumFromBlock, CheckEven, Nat.mod_one]
      rw [hblock]
      show fileLoop (blockLoop sum (stream.take (min remaining 1024)) 0
            (min remaining 1024))
          (stream.drop (min remaining 1024)) (remaining - min remaining 1024)
          (read + min remaining 1024)
        = _
      have hrec := IH (remaining - min remaining 1024) (by omega) (by omega)
        (blockLoop sum (stream.take (min remaining 1024)) 0
          (min remaining 1024))
        (stream.drop (min remaining 1024)) (read + min remaining 1024)
        (by simp [List.length_drop]; omega)
      rw [hrec]
      have hdl : (stream.drop (min remaining 1024)).length
          = stream.length - 1024 := by
        simp [List.length_drop, hch]
      rw [hdl, hch]
      have hq : (stream.length - 1024) / 1024 = stream.length / 1024 - 1 := by
        omega
      rw [hq]
      have hq1 : 1 ≤ stream.length / 1024 := by omega
      rw [show remaining - 1024 - 1024 * (stream.length / 1024 - 1)
        = remaining - 1024 * (stream.length / 1024) by omega]
      rw [show read + 1024 + 1024 * (stream.length / 1024 - 1)
        = read + 1024 * (stream.length / 1024) by omega]

/-- C9: for an even byte count, feeding a bounded stream region through
the chunked `UpdateSumFromFile` path yields exactly the same result as
feeding the same bytes as one contiguous block (the 1024-byte chunk size
is not observable); and when the stream holds fewer bytes than
requested it fails with the out-of-range read error reporting the byte
count read before the failure. -/
theorem updateSumFromFile_eq_block (sum : Nat) (stream : List Nat)
    (byte_count : Nat) (he : byte_count % 2 = 0) :
    (byte_count ≤ stream.length →
      UpdateSumFromFile sum stream byte_count
        = UpdateSumFromBlock sum stream byte_count) ∧
    (stream.length < byte_count →
      UpdateSumFromFile sum stream byte_count
        = .error (.readFailed
            (min (byte_count - 1024 * (stream.length / 1024)) 1024)
            (1024 * (stream.length / 1024))
            (byte_count - 1024 * (stream.length / 1024)))) := by
  have h1 : UpdateSumFromFile sum stream byte_count
      = fileLoop sum stream byte_count 0 := by
    simp [UpdateSumFromFile, CheckEven, Nat.mod_one]
  have h2 : UpdateSumFromBlock sum stream byte_count
      = .ok (blockLoop sum stream 0 byte_count) := by
    simp [UpdateSumFromBlock, CheckEven, Nat.mod_one]
  constructor
  · intro hlen
    rw [h1, h2, fileLoop_ok byte_count he sum stream 0 hlen]
    rw [blockLoop_eq_foldWords byte_count sum 0 byte_count stream (by omega)
      (by omega) hlen]
    simp
  · intro hlen
    rw [h1, fileLoop_fail byte_count he sum stream 0 hlen]
    norm_num

/-- C9 witness: the equivalence evaluated on the two-byte stream
`[1, 2]`. -/
theorem updateSumFromFile_eq_block_witness :
    UpdateSumFromFile 0 [1, 2] 2 = UpdateSumFromBlock 0 [1, 2] 2 :=
  (updateSumFromFile_eq_block 0 [1, 2] 2 (by norm_num)).1 (by norm_num)

end DiskCopy
